import Mathlib

/-! lz-tha: the cached market-data service (`main.go`)

A shallow embedding of `main.go`: the `DataAPI` value, its three HTTP handlers,
the `refreshData` loop and the constructor `NewDataAPI`, followed by the
properties of the refresh-and-serve core.

Conventions of the embedding:

* Go byte slices and Go strings that carry payload text are lists of byte values.
* `time.Duration` is a signed count of nanoseconds (`Int`); the two intervals of
  the program are far below `2^63`, so no wrap-around occurs.
* The `sync.RWMutex` brackets each read and each write of `data`.  The embedding is
  sequential state passing: every handler call and every loop iteration is one
  atomic step, which is what the critical sections provide.
* The endless `for` loop of `refreshData` is driven by the finite list of results
  its successive fetches return; sleeping, fetching and storing are recorded as
  events.  Logging is not recorded.
-/

namespace LzTha

/-! ## Go values -/

/-- A Go byte slice, or the bytes of a Go string. -/
abbrev Bytes := List Nat

/-- The bytes of an ASCII string literal of the program. -/
def ascii (s : String) : Bytes := s.toList.map Char.toNat

/-- Values a JSON document decodes to as Go `interface{}`.  A number keeps its
lexeme; the conversion to `float64` is not part of the embedding. -/
inductive JsonValue where
  | null : JsonValue
  | bool (b : Bool) : JsonValue
  | number (lexeme : Bytes) : JsonValue
  | string (s : Bytes) : JsonValue
  | array (xs : List JsonValue) : JsonValue
  | object (kvs : List (Bytes × JsonValue)) : JsonValue

/-- The entries of a non-nil Go map, one entry per key. -/
abbrev Entries := List (Bytes × JsonValue)

/-- A Go value of type `map[string]interface{}`: `none` is the nil map. -/
abbrev GoMap := Option Entries

/-- Byte-wise order of Go strings. -/
def bytesLt : Bytes → Bytes → Bool
  | [], [] => false
  | [], _ :: _ => true
  | _ :: _, [] => false
  | a :: as, b :: bs => if a < b then true else if b < a then false else bytesLt as bs

/-- Assignment `m[k] = v` on the entries of a map.  A Go map has no order of its
own; the entries are kept in the order of their keys, so that a map has one
representation. -/
def Entries.set : Entries → Bytes → JsonValue → Entries
  | [], k, v => [(k, v)]
  | (k0, v0) :: rest, k, v =>
    if k0 = k then (k, v) :: rest
    else if bytesLt k k0 then (k, v) :: (k0, v0) :: rest
    else (k0, v0) :: Entries.set rest k v

/-- The comma-ok lookup `v, ok := m[k]`; on the nil map `ok` is false. -/
def GoMap.lookup (m : GoMap) (k : Bytes) : Option JsonValue :=
  match m with
  | none => none
  | some kvs => (kvs.find? (fun kv => decide (kv.1 = k))).map Prod.snd

/-- The `ok` of the comma-ok lookup. -/
def GoMap.hasKey (m : GoMap) (k : Bytes) : Bool := (m.lookup k).isSome

/-- The Go test `m == nil`. -/
def GoMap.isNil (m : GoMap) : Bool := m.isNone

/-! ## The JSON package (`json.Unmarshal`, `json.Marshal`)

The package is a collaborator of the program, not part of it.  The definitions of
the program below take the decoder as a parameter, so the general theorems hold
for every decoder; `jsonUnmarshal` is the reference decoder used to evaluate the
program on concrete response bodies. -/

def isSpace (c : Nat) : Bool := c = 32 || c = 9 || c = 10 || c = 13

def isDigit (c : Nat) : Bool := decide (48 ≤ c) && decide (c ≤ 57)

def skipSpace : Bytes → Bytes
  | [] => []
  | c :: cs => if isSpace c then skipSpace cs else c :: cs

def hexVal (c : Nat) : Option Nat :=
  if 48 ≤ c ∧ c ≤ 57 then some (c - 48)
  else if 97 ≤ c ∧ c ≤ 102 then some (c - 87)
  else if 65 ≤ c ∧ c ≤ 70 then some (c - 55)
  else none

def hex4 (a b c d : Nat) : Option Nat :=
  match hexVal a, hexVal b, hexVal c, hexVal d with
  | some w, some x, some y, some z => some (((w * 16 + x) * 16 + y) * 16 + z)
  | _, _, _, _ => none

/-- UTF-8 encoding of a code point. -/
def utf8 (cp : Nat) : Bytes :=
  if cp < 128 then [cp]
  else if cp < 2048 then [192 + cp / 64, 128 + cp % 64]
  else if cp < 65536 then [224 + cp / 4096, 128 + cp / 64 % 64, 128 + cp % 64]
  else [240 + cp / 262144, 128 + cp / 4096 % 64, 128 + cp / 64 % 64, 128 + cp % 64]

def isHighSurrogate (u : Nat) : Bool := decide (55296 ≤ u) && decide (u < 56320)

def isLowSurrogate (u : Nat) : Bool := decide (56320 ≤ u) && decide (u < 57344)

/-- A pending high surrogate that found no partner decodes to U+FFFD. -/
def flushSurrogate (pend : Option Nat) (acc : Bytes) : Bytes :=
  match pend with
  | some _ => (utf8 65533).reverse ++ acc
  | none => acc

/-- The body of a string literal, after the opening quote: the decoded bytes and
the input left after the closing quote.  `pend` is a high surrogate read by the
previous escape. -/
def parseStringBody : Option Nat → Bytes → Bytes → Option (Bytes × Bytes)
  | _, [], _ => none
  | pend, 34 :: rest, acc => some ((flushSurrogate pend acc).reverse, rest)
  | pend, 92 :: 117 :: a :: b :: c :: d :: rest, acc =>
    match hex4 a b c d with
    | none => none
    | some u =>
      match pend with
      | some hi =>
        if isLowSurrogate u then
          parseStringBody none rest
            ((utf8 (65536 + (hi - 55296) * 1024 + (u - 56320))).reverse ++ acc)
        else if isHighSurrogate u then
          parseStringBody (some u) rest (flushSurrogate pend acc)
        else parseStringBody none rest ((utf8 u).reverse ++ flushSurrogate pend acc)
      | none =>
        if isHighSurrogate u then parseStringBody (some u) rest acc
        else parseStringBody none rest
          ((utf8 (if isLowSurrogate u then 65533 else u)).reverse ++ acc)
  | pend, 92 :: e :: rest, acc =>
    if e = 34 ∨ e = 92 ∨ e = 47 then parseStringBody none rest (e :: flushSurrogate pend acc)
    else if e = 98 then parseStringBody none rest (8 :: flushSurrogate pend acc)
    else if e = 102 then parseStringBody none rest (12 :: flushSurrogate pend acc)
    else if e = 110 then parseStringBody none rest (10 :: flushSurrogate pend acc)
    else if e = 114 then parseStringBody none rest (13 :: flushSurrogate pend acc)
    else if e = 116 then parseStringBody none rest (9 :: flushSurrogate pend acc)
    else none
  | _, [92], _ => none
  | pend, c :: rest, acc =>
    if c < 32 then none else parseStringBody none rest (c :: flushSurrogate pend acc)
termination_by structural _ bs => bs

/-- The lexeme of a JSON number at the head of the input, and the input left. -/
def parseNumber (bs : Bytes) : Option (Bytes × Bytes) :=
  let signed : Bytes × Bytes :=
    match bs with
    | 45 :: r => ([45], r)
    | r => ([], r)
  let whole := signed.2.span isDigit
  if whole.1 = [] ∨ (1 < whole.1.length ∧ whole.1.head? = some 48) then none
  else
    let frac : Option (Bytes × Bytes) :=
      match whole.2 with
      | 46 :: r =>
        let ds := r.span isDigit
        if ds.1 = [] then none else some (46 :: ds.1, ds.2)
      | r => some ([], r)
    match frac with
    | none => none
    | some (fl, r1) =>
      let expo : Option (Bytes × Bytes) :=
        match r1 with
        | e :: r =>
          if e = 101 ∨ e = 69 then
            let sg : Bytes × Bytes :=
              match r with
              | s :: r2 => if s = 43 ∨ s = 45 then ([s], r2) else ([], s :: r2)
              | [] => ([], [])
            let ds := sg.2.span isDigit
            if ds.1 = [] then none else some (e :: sg.1 ++ ds.1, ds.2)
          else some ([], e :: r)
        | [] => some ([], [])
      match expo with
      | none => none
      | some (el, r2) => some (signed.1 ++ whole.1 ++ fl ++ el, r2)

mutual
/-- One JSON value at the head of the input.  The first argument bounds the number
of nested calls; `jsonUnmarshal` starts it at the length of the input plus one. -/
def parseValue : Nat → Bytes → Option (JsonValue × Bytes)
  | 0, _ => none
  | fuel + 1, bs =>
    match skipSpace bs with
    | 110 :: 117 :: 108 :: 108 :: rest => some (JsonValue.null, rest)
    | 116 :: 114 :: 117 :: 101 :: rest => some (JsonValue.bool true, rest)
    | 102 :: 97 :: 108 :: 115 :: 101 :: rest => some (JsonValue.bool false, rest)
    | 34 :: rest =>
      match parseStringBody none rest [] with
      | some (str, r) => some (JsonValue.string str, r)
      | none => none
    | 91 :: rest =>
      match skipSpace rest with
      | 93 :: r => some (JsonValue.array [], r)
      | r =>
        match parseElements fuel r [] with
        | some (xs, r2) => some (JsonValue.array xs, r2)
        | none => none
    | 123 :: rest =>
      match skipSpace rest with
      | 125 :: r => some (JsonValue.object [], r)
      | r =>
        match parseMembers fuel r [] with
        | some (kvs, r2) => some (JsonValue.object kvs, r2)
        | none => none
    | other =>
      match parseNumber other with
      | some (lexeme, r) => some (JsonValue.number lexeme, r)
      | none => none
/-- The elements of an array after `[`, up to and including `]`. -/
def parseElements : Nat → Bytes → List JsonValue → Option (List JsonValue × Bytes)
  | 0, _, _ => none
  | fuel + 1, bs, acc =>
    match parseValue fuel bs with
    | none => none
    | some (v, r) =>
      match skipSpace r with
      | 44 :: r2 => parseElements fuel r2 (v :: acc)
      | 93 :: r2 => some ((v :: acc).reverse, r2)
      | _ => none
/-- The members of an object after the opening brace, up to and including the
closing one.  A repeated key keeps its last value. -/
def parseMembers : Nat → Bytes → Entries → Option (Entries × Bytes)
  | 0, _, _ => none
  | fuel + 1, bs, acc =>
    match skipSpace bs with
    | 34 :: r =>
      match parseStringBody none r [] with
      | none => none
      | some (k, r1) =>
        match skipSpace r1 with
        | 58 :: r2 =>
          match parseValue fuel r2 with
          | none => none
          | some (v, r3) =>
            match skipSpace r3 with
            | 44 :: r4 => parseMembers fuel r4 (Entries.set acc k v)
            | 125 :: r4 => some (Entries.set acc k v, r4)
            | _ => none
        | _ => none
    | _ => none
end

/-- Reference model of `json.Unmarshal(body, &data)` for `data` a fresh empty
`map[string]interface{}`: a JSON object fills the map, the JSON literal `null`
sets the map to nil without an error, everything else is an error. -/
def jsonUnmarshal (body : Bytes) : Except String GoMap :=
  match skipSpace body with
  | 110 :: 117 :: 108 :: 108 :: rest =>
    if skipSpace rest = [] then Except.ok none
    else Except.error "invalid character after top-level value"
  | 123 :: rest =>
    match parseValue (body.length + 1) (123 :: rest) with
    | some (JsonValue.object kvs, r) =>
      if skipSpace r = [] then Except.ok (some kvs)
      else Except.error "invalid character after top-level value"
    | _ => Except.error "invalid JSON object"
  | _ => Except.error "cannot unmarshal into Go value of type map[string]interface {}"

def hexDigit (n : Nat) : Nat := if n < 10 then 48 + n else 87 + n

/-- The body of a quoted JSON string for the bytes of a Go string. -/
def quoteBody : Bytes → Bytes
  | [] => []
  | c :: rest =>
    (if c = 34 then [92, 34]
     else if c = 92 then [92, 92]
     else if c = 10 then [92, 110]
     else if c = 13 then [92, 114]
     else if c = 9 then [92, 116]
     else if c < 32 ∨ c = 60 ∨ c = 62 ∨ c = 38 then
       [92, 117, 48, 48, hexDigit (c / 16), hexDigit (c % 16)]
     else [c]) ++ quoteBody rest

def quote (s : Bytes) : Bytes := 34 :: quoteBody s ++ [34]

mutual
/-- The JSON text of a value. -/
def marshalValue : JsonValue → Bytes
  | JsonValue.null => [110, 117, 108, 108]
  | JsonValue.bool true => [116, 114, 117, 101]
  | JsonValue.bool false => [102, 97, 108, 115, 101]
  | JsonValue.number lexeme => lexeme
  | JsonValue.string str => quote str
  | JsonValue.array xs => 91 :: marshalElements xs ++ [93]
  | JsonValue.object kvs => 123 :: marshalMembers kvs ++ [125]
/-- The elements of an array, separated by commas. -/
def marshalElements : List JsonValue → Bytes
  | [] => []
  | [v] => marshalValue v
  | v :: rest => marshalValue v ++ 44 :: marshalElements rest
/-- The members of an object in the order of their keys, separated by commas. -/
def marshalMembers : List (Bytes × JsonValue) → Bytes
  | [] => []
  | [(k, v)] => quote k ++ 58 :: marshalValue v
  | (k, v) :: rest => quote k ++ 58 :: marshalValue v ++ 44 :: marshalMembers rest
end

/-- Reference model of `json.Marshal` on a `map[string]interface{}`: the nil map
encodes as `null`, any other map as an object with its keys in order. -/
def jsonMarshal (m : GoMap) : Except String Bytes :=
  match m with
  | none => Except.ok [110, 117, 108, 108]
  | some kvs => Except.ok (123 :: marshalMembers kvs ++ [125])

/-! ## The fiber request context

The part of `*fiber.Ctx` the handlers use: the response under construction and the
JSON encoder of the application configuration. -/

def StatusOK : Nat := 200

def StatusInternalServerError : Nat := 500

def StatusServiceUnavailable : Nat := 503

/-- The status text fiber keeps for the codes the program sends. -/
def StatusMessage (status : Nat) : Bytes :=
  if status = 200 then ascii "OK"
  else if status = 500 then ascii "Internal Server Error"
  else if status = 503 then ascii "Service Unavailable"
  else []

def MIMEApplicationJSON : Bytes := ascii "application/json"

/-- The response side of a `*fiber.Ctx`, with `c.app.config.JSONEncoder`. -/
structure Ctx where
  JSONEncoder : GoMap → Except String Bytes
  status : Nat
  body : Bytes
  contentType : Bytes

/-- Result of a call on the context: the Go `error` (`none` is nil) and the context
after the call. -/
abbrev CtxResult := Option String × Ctx

/-- Body of `c.Send(body)`: the response body is replaced. -/
def Ctx.Send (c : Ctx) (body : Bytes) : CtxResult :=
  (none, { c with body := body })

/-- Body of `c.SendStatus(status)`: sets the status code and, when the response body
is empty, writes the status text as body. -/
def Ctx.SendStatus (c : Ctx) (status : Nat) : CtxResult :=
  let c1 := { c with status := status }
  if c1.body.length = 0 then (none, { c1 with body := StatusMessage status })
  else (none, c1)

/-- Body of `c.JSON(data)`: the encoder output becomes the body and the content type
is set; an encoder error is returned and the response is left alone. -/
def Ctx.JSON (c : Ctx) (data : GoMap) : CtxResult :=
  match c.JSONEncoder data with
  | Except.error err => (some err, c)
  | Except.ok raw => (none, { c with body := raw, contentType := MIMEApplicationJSON })

/-- The context fiber hands to a route handler: status 200 and nothing written. -/
def Ctx.fresh (enc : GoMap → Except String Bytes) : Ctx :=
  { JSONEncoder := enc, status := StatusOK, body := [], contentType := [] }

/-! ## The program -/

def CFG_ENV_API_KEY : String := "API_KEY"

def CFG_ENV_CURRENCY : String := "CURRENCY"

def CFG_ENV_MARKET : String := "MARKET"

/-- The value of `fmt.Sprintf(DATA_API_ENDPOINT, currency, market, apikey)`. -/
def DATA_API_ENDPOINT (currency market apikey : String) : String :=
  "https://www.alphavantage.co/query?function=DIGITAL_CURRENCY_DAILY&symbol=" ++ currency
    ++ "&market=" ++ market ++ "&apikey=" ++ apikey

/-- A `time.Duration`, in nanoseconds. -/
abbrev Duration := Int

def Second : Duration := 1000000000

def Hour : Duration := 3600 * Second

def DEFAULT_REFRESH_INTERVAL : Duration := Hour * 2

def DEFAULT_RETRY_INTERVAL : Duration := Second * 5

/-- The methods of `DataAPI` that serve a route. -/
inductive Handler where
  | GetDataHandler : Handler
  | LivenessProbeHandler : Handler
  | ReadinessProbeHandler : Handler
  deriving DecidableEq, Repr

/-- The `*fiber.App` as the program configures it: the JSON encoder and the routes
registered with `app.Get`.  (The configured `JSONDecoder` is used by no handler.) -/
structure App where
  JSONEncoder : GoMap → Except String Bytes
  routes : List (String × Handler)

/-- The struct `DataAPI`.  `Http` is nil until `NewDataAPI` sets it; `client` is the
empty `fiber.Client` and `mu` guards `data` (see the conventions above). -/
structure DataAPI where
  Http : Option App
  apikey : String
  currency : String
  market : String
  data : GoMap

/-- What the program does to the outside and to the cache. -/
inductive Event where
  | sleep (d : Duration) : Event
  | fetch (url : String) : Event
  | store (data : GoMap) : Event

/-- Result of a handler: the returned Go `error`, the context and the `DataAPI`
after the call, and the events the call caused. -/
structure HandlerResult where
  err : Option String
  ctx : Ctx
  api : DataAPI
  events : List Event

def DataAPI.LivenessProbeHandler (d : DataAPI) (c : Ctx) : HandlerResult :=
  let c1 := (c.SendStatus StatusOK).2
  let r := c1.Send []
  { err := r.1, ctx := r.2, api := d, events := [] }

def DataAPI.ReadinessProbeHandler (d : DataAPI) (c : Ctx) : HandlerResult :=
  let c1 :=
    if d.data.isNil then (c.SendStatus StatusServiceUnavailable).2
    else (c.SendStatus StatusOK).2
  let r := c1.Send []
  { err := r.1, ctx := r.2, api := d, events := [] }

def DataAPI.GetDataHandler (d : DataAPI) (c : Ctx) : HandlerResult :=
  if d.data.isNil then
    let c1 := (c.SendStatus StatusInternalServerError).2
    let r := c1.Send []
    { err := r.1, ctx := r.2, api := d, events := [] }
  else
    let r := c.JSON d.data
    { err := r.1, ctx := r.2, api := d, events := [] }

/-- Dispatch of a registered route to its method. -/
def DataAPI.handle (d : DataAPI) (h : Handler) (c : Ctx) : HandlerResult :=
  match h with
  | Handler.GetDataHandler => d.GetDataHandler c
  | Handler.LivenessProbeHandler => d.LivenessProbeHandler c
  | Handler.ReadinessProbeHandler => d.ReadinessProbeHandler c

/-- What `agent.Bytes()` returns: status code, body and transport errors. -/
structure FetchResult where
  status : Nat
  body : Bytes
  errs : List String

/-- The state of the loop of `refreshData` between two iterations, with the events
so far. -/
structure LoopState where
  api : DataAPI
  refreshInterval : Duration
  events : List Event

/-- One iteration of the `for` loop of `refreshData`, for the result `res` of its
fetch; `unmarshal` is `json.Unmarshal` into a fresh map. -/
def refreshIteration (unmarshal : Bytes → Except String GoMap) (s : LoopState)
    (res : FetchResult) : LoopState :=
  let slept : List Event :=
    if s.refreshInterval > 0 then s.events ++ [Event.sleep s.refreshInterval] else s.events
  let refreshInterval := DEFAULT_RETRY_INTERVAL
  let url := DATA_API_ENDPOINT s.api.currency s.api.market s.api.apikey
  let fetched := slept ++ [Event.fetch url]
  if res.status ≠ StatusOK ∨ res.errs.length > 0 then
    { api := s.api, refreshInterval := refreshInterval, events := fetched }
  else
    match unmarshal res.body with
    | Except.error _ =>
      { api := s.api, refreshInterval := refreshInterval, events := fetched }
    | Except.ok data =>
      if data.hasKey (ascii "Error Message") then
        { api := s.api, refreshInterval := refreshInterval, events := fetched }
      else
        { api := { s.api with data := data },
          refreshInterval := DEFAULT_REFRESH_INTERVAL,
          events := fetched ++ [Event.store data] }

/-- The loop of `refreshData` from a given loop state, over the results of its
successive fetches. -/
def refreshLoop (unmarshal : Bytes → Except String GoMap) (s : LoopState)
    (results : List FetchResult) : LoopState :=
  results.foldl (refreshIteration unmarshal) s

/-- The method `refreshData`: `refreshInterval` starts at the zero duration. -/
def DataAPI.refreshData (unmarshal : Bytes → Except String GoMap) (d : DataAPI)
    (results : List FetchResult) : LoopState :=
  refreshLoop unmarshal { api := d, refreshInterval := 0, events := [] } results

/-- The process environment; `os.Getenv` gives the empty string for an unset name. -/
abbrev Env := String → Option String

def Getenv (env : Env) (key : String) : String := (env key).getD ""

/-- The constructor `NewDataAPI`.  `log.Fatal` ends the process: the result is then
the logged message and no `DataAPI` exists. -/
def NewDataAPI (env : Env) : Except String DataAPI :=
  let apikey := Getenv env CFG_ENV_API_KEY
  if apikey.length = 0 then Except.error "No API key provided"
  else
    let currency := Getenv env CFG_ENV_CURRENCY
    if currency.length = 0 then Except.error "No currency ticker provided"
    else
      let market := Getenv env CFG_ENV_MARKET
      if market.length = 0 then Except.error "No market name provided"
      else
        let dataAPI : DataAPI :=
          { Http := none, apikey := apikey, currency := currency, market := market,
            data := none }
        let app : App :=
          { JSONEncoder := jsonMarshal,
            routes := [("/", Handler.GetDataHandler),
                       ("/healthz/live", Handler.LivenessProbeHandler),
                       ("/healthz/ready", Handler.ReadinessProbeHandler)] }
        Except.ok { dataAPI with Http := some app }

/-- The response a handler produces for a request served by the application of
`d`: the handler runs on a fresh context carrying the configured encoder. -/
def DataAPI.serve (d : DataAPI) (enc : GoMap → Except String Bytes) (h : Handler) :
    HandlerResult :=
  d.handle h (Ctx.fresh enc)

/-! ## Concrete inputs used to evaluate the program -/

/-- A `DataAPI` as `NewDataAPI` returns it for the settings `demo`, `BTC`, `USD`,
with the cache set to `data`. -/
def sampleAPI (data : GoMap) : DataAPI :=
  { Http := some { JSONEncoder := jsonMarshal,
                   routes := [("/", Handler.GetDataHandler),
                              ("/healthz/live", Handler.LivenessProbeHandler),
                              ("/healthz/ready", Handler.ReadinessProbeHandler)] },
    apikey := "demo", currency := "BTC", market := "USD", data := data }

/-- The response body `null`. -/
def nullBody : Bytes := ascii "null"

/-- The response body of an empty JSON object. -/
def emptyObjectBody : Bytes := ascii "\x7b\x7d"

/-- The response body with the key `Meta Data` bound to an empty object. -/
def metaDataBody : Bytes := ascii "\x7b\"Meta Data\": \x7b\x7d\x7d"

/-- The response body the remote API sends for a bad request. -/
def errorMessageBody : Bytes := ascii "\x7b\"Error Message\": \"invalid API key\"\x7d"

/-! ## Facts about one iteration -/

/-- The events of the loop after the sleep and the fetch of an iteration. -/
def fetchedEvents (s : LoopState) : List Event :=
  (if s.refreshInterval > 0 then s.events ++ [Event.sleep s.refreshInterval] else s.events)
    ++ [Event.fetch (DATA_API_ENDPOINT s.api.currency s.api.market s.api.apikey)]

/-- The four ways an iteration fails, as the loop tests them in turn. -/
def FetchFailed (unmarshal : Bytes → Except String GoMap) (res : FetchResult) : Prop :=
  res.status ≠ StatusOK ∨ res.errs ≠ [] ∨ (∃ e, unmarshal res.body = Except.error e) ∨
    (∃ m, unmarshal res.body = Except.ok m ∧ m.hasKey (ascii "Error Message") = true)

theorem refreshIteration_failed (unmarshal : Bytes → Except String GoMap) (s : LoopState)
    (res : FetchResult) (h : FetchFailed unmarshal res) :
    refreshIteration unmarshal s res =
      { api := s.api, refreshInterval := DEFAULT_RETRY_INTERVAL, events := fetchedEvents s } := by
  unfold refreshIteration fetchedEvents
  by_cases h1 : res.status ≠ StatusOK ∨ res.errs.length > 0
  · simp only [h1, if_true]
  · simp only [h1, if_false]
    have hs : res.status = StatusOK := by
      by_contra hc
      exact h1 (Or.inl hc)
    have he : res.errs = [] := by
      by_contra hc
      exact h1 (Or.inr (List.length_pos.mpr hc))
    rcases h with h | h | ⟨e, h⟩ | ⟨m, h, hk⟩
    · exact absurd hs h
    · exact absurd he h
    · simp only [h]
    · simp only [h, hk, if_true]

theorem refreshIteration_stored (unmarshal : Bytes → Except String GoMap) (s : LoopState)
    (res : FetchResult) (data : GoMap) (hs : res.status = StatusOK) (he : res.errs = [])
    (hd : unmarshal res.body = Except.ok data)
    (hk : data.hasKey (ascii "Error Message") = false) :
    refreshIteration unmarshal s res =
      { api := { s.api with data := data }, refreshInterval := DEFAULT_REFRESH_INTERVAL,
        events := fetchedEvents s ++ [Event.store data] } := by
  unfold refreshIteration fetchedEvents
  simp [hs, he, hd, hk]

/-- Every fetch result either fails or is decoded and stored. -/
theorem failed_or_stored (unmarshal : Bytes → Except String GoMap) (res : FetchResult) :
    FetchFailed unmarshal res ∨
      ∃ data, res.status = StatusOK ∧ res.errs = [] ∧ unmarshal res.body = Except.ok data ∧
        data.hasKey (ascii "Error Message") = false := by
  by_cases hs : res.status = StatusOK
  · by_cases he : res.errs = []
    · cases hd : unmarshal res.body with
      | error e => exact Or.inl (Or.inr (Or.inr (Or.inl ⟨e, hd⟩)))
      | ok data =>
        cases hk : data.hasKey (ascii "Error Message") with
        | true => exact Or.inl (Or.inr (Or.inr (Or.inr ⟨data, hd, hk⟩)))
        | false => exact Or.inr ⟨data, hs, he, rfl, hk⟩
    · exact Or.inl (Or.inr (Or.inl he))
  · exact Or.inl (Or.inl hs)

/-- With a non-nil map in the cache, `GET /` answers 200 with the encoding of the
map as body. -/
theorem getData_present (d : DataAPI) (enc : GoMap → Except String Bytes) (P : Entries)
    (raw : Bytes) (hP : d.data = some P) (henc : enc (some P) = Except.ok raw) :
    (d.serve enc Handler.GetDataHandler).err = none ∧
      (d.serve enc Handler.GetDataHandler).ctx.status = 200 ∧
      (d.serve enc Handler.GetDataHandler).ctx.body = raw ∧
      (d.serve enc Handler.GetDataHandler).ctx.contentType = MIMEApplicationJSON := by
  simp [DataAPI.serve, DataAPI.handle, DataAPI.GetDataHandler, GoMap.isNil, hP, Ctx.JSON,
    Ctx.fresh, henc, StatusOK]

theorem retry_ne_refresh : DEFAULT_RETRY_INTERVAL ≠ DEFAULT_REFRESH_INTERVAL := by decide

theorem retry_pos : 0 < DEFAULT_RETRY_INTERVAL := by decide

theorem refresh_pos : 0 < DEFAULT_REFRESH_INTERVAL := by decide

/-- The interval an iteration leaves is one of the two constants. -/
theorem refreshIteration_interval (unmarshal : Bytes → Except String GoMap) (s : LoopState)
    (res : FetchResult) :
    (refreshIteration unmarshal s res).refreshInterval = DEFAULT_RETRY_INTERVAL ∨
      (refreshIteration unmarshal s res).refreshInterval = DEFAULT_REFRESH_INTERVAL := by
  rcases failed_or_stored unmarshal res with h | ⟨data, hs, he, hd, hk⟩
  · rw [refreshIteration_failed unmarshal s res h]
    exact Or.inl rfl
  · rw [refreshIteration_stored unmarshal s res data hs he hd hk]
    exact Or.inr rfl

/-- With a non-nil map in the cache the readiness probe answers 200 with an empty
body. -/
theorem readiness_present (d : DataAPI) (c : Ctx) (P : Entries) (hP : d.data = some P) :
    (d.ReadinessProbeHandler c).err = none ∧ (d.ReadinessProbeHandler c).ctx.status = 200 ∧
      (d.ReadinessProbeHandler c).ctx.body = [] := by
  simp only [DataAPI.ReadinessProbeHandler, hP, GoMap.isNil, Option.isNone_some, Ctx.Send,
    Ctx.SendStatus, StatusOK]
  refine ⟨trivial, ?_, trivial⟩
  simp only [Bool.false_eq_true, if_false]
  split <;> rfl

/-- A fetch that succeeds with a non-nil decoded map `P` replaces the cache by `P`;
`GET /` then answers 200 with the encoding of `P` and the readiness probe 200. -/
theorem stored_map_is_served (unmarshal : Bytes → Except String GoMap) (s : LoopState)
    (res : FetchResult) (P : Entries) (enc : GoMap → Except String Bytes) (raw : Bytes)
    (c : Ctx) (hs : res.status = StatusOK) (he : res.errs = [])
    (hd : unmarshal res.body = Except.ok (some P))
    (hk : GoMap.hasKey (some P) (ascii "Error Message") = false)
    (henc : enc (some P) = Except.ok raw) :
    (refreshIteration unmarshal s res).api.data = some P ∧
      ((refreshIteration unmarshal s res).api.serve enc Handler.GetDataHandler).err = none ∧
      ((refreshIteration unmarshal s res).api.serve enc Handler.GetDataHandler).ctx.status = 200 ∧
      ((refreshIteration unmarshal s res).api.serve enc Handler.GetDataHandler).ctx.body = raw ∧
      ((refreshIteration unmarshal s res).api.ReadinessProbeHandler c).ctx.status = 200 := by
  rw [refreshIteration_stored unmarshal s res (some P) hs he hd hk]
  have hg := getData_present { s.api with data := some P } enc P raw rfl henc
  have hr := readiness_present { s.api with data := some P } c P rfl
  exact ⟨rfl, hg.1, hg.2.1, hg.2.2.1, hr.2.1⟩

/-- As long as no accepted body decodes to the nil map, a present cache stays
present over any number of iterations. -/
theorem present_stays_present (unmarshal : Bytes → Except String GoMap)
    (results : List FetchResult) (s : LoopState)
    (hdec : ∀ r ∈ results, unmarshal r.body ≠ Except.ok none)
    (hp : s.api.data.isNil = false) :
    (refreshLoop unmarshal s results).api.data.isNil = false := by
  induction results generalizing s with
  | nil => exact hp
  | cons r rest ih =>
    unfold refreshLoop
    rw [List.foldl_cons]
    apply ih
    · intro x hx
      exact hdec x (List.mem_cons_of_mem r hx)
    · rcases failed_or_stored unmarshal r with h | ⟨data, hs, he, hd, hk⟩
      · rw [refreshIteration_failed unmarshal s r h]
        exact hp
      · rw [refreshIteration_stored unmarshal s r data hs he hd hk]
        cases data with
        | none => exact absurd hd (hdec r (List.mem_cons_self r rest))
        | some kvs => rfl

theorem string_length_zero (str : String) : str.length = 0 ↔ str = "" := by
  constructor
  · intro h
    cases str with
    | mk data =>
      simp only [String.length, List.length_eq_zero] at h
      subst h
      rfl
  · intro h
    subst h
    rfl

/-- The named variable is unset or set to the empty string. -/
def unsetOrEmpty (env : Env) (key : String) : Prop := env key = none ∨ env key = some ""

theorem getenv_length_zero (env : Env) (key : String) :
    (Getenv env key).length = 0 ↔ unsetOrEmpty env key := by
  rw [string_length_zero]
  unfold Getenv unsetOrEmpty
  cases h : env key with
  | none => simp
  | some v => simp

/-- Of two consecutive events, a fetch comes right after a sleep of one of the two
positive intervals. -/
def DelayedFetch (a b : Event) : Prop :=
  match b with
  | Event.fetch _ =>
    ∃ x, a = Event.sleep x ∧ 0 < x ∧ (x = DEFAULT_RETRY_INTERVAL ∨ x = DEFAULT_REFRESH_INTERVAL)
  | _ => True

/-- What holds of the loop state between iterations: the request URL is fixed, the
events so far are well spaced, and either nothing has happened yet and the interval
is zero, or the first event is a fetch and the interval is one of the two
constants. -/
def LoopInv (url : String) (n : Nat) (s : LoopState) : Prop :=
  DATA_API_ENDPOINT s.api.currency s.api.market s.api.apikey = url ∧
  List.Chain' DelayedFetch s.events ∧
  (s.events.filter (fun e => match e with | Event.fetch _ => true | _ => false)).length = n ∧
  ((s.events = [] ∧ s.refreshInterval = 0) ∨
    (s.events.head? = some (Event.fetch url) ∧
      (s.refreshInterval = DEFAULT_RETRY_INTERVAL ∨
        s.refreshInterval = DEFAULT_REFRESH_INTERVAL)))

theorem fetchedEvents_inv (url : String) (n : Nat) (s : LoopState) (h : LoopInv url n s) :
    List.Chain' DelayedFetch (fetchedEvents s) ∧
      ((fetchedEvents s).filter
        (fun e => match e with | Event.fetch _ => true | _ => false)).length = n + 1 ∧
      (fetchedEvents s).head? = some (Event.fetch url) := by
  obtain ⟨hurl, hch, hcount, hcase⟩ := h
  rcases hcase with ⟨hnil, hzero⟩ | ⟨hhead, hiv⟩
  · have hf : fetchedEvents s = [Event.fetch url] := by
      unfold fetchedEvents
      rw [hnil, hzero, hurl]
      simp
    rw [hnil] at hcount
    simp at hcount
    rw [hf]
    refine ⟨List.chain'_singleton _, ?_, rfl⟩
    simp [hcount]
  · have hpos : s.refreshInterval > 0 := by
      rcases hiv with h | h
      · rw [h]; exact retry_pos
      · rw [h]; exact refresh_pos
    have hf : fetchedEvents s = s.events ++ [Event.sleep s.refreshInterval, Event.fetch url] := by
      unfold fetchedEvents
      rw [if_pos hpos, hurl]
      simp
    rw [hf]
    refine ⟨?_, ?_, ?_⟩
    · rw [List.chain'_append]
      refine ⟨hch, ?_, ?_⟩
      · rw [List.chain'_cons]
        exact ⟨⟨s.refreshInterval, rfl, hpos, hiv⟩, List.chain'_singleton _⟩
      · intro x _ y hy
        simp at hy
        subst hy
        trivial
    · rw [List.filter_append, List.length_append, hcount]
      simp
    · cases hev : s.events with
      | nil => rw [hev] at hhead; simp at hhead
      | cons e rest =>
        rw [hev] at hhead
        simpa using hhead

theorem refreshIteration_inv (unmarshal : Bytes → Except String GoMap) (url : String) (n : Nat)
    (s : LoopState) (res : FetchResult) (h : LoopInv url n s) :
    LoopInv url (n + 1) (refreshIteration unmarshal s res) ∧
      (refreshIteration unmarshal s res).events.head? = some (Event.fetch url) := by
  obtain ⟨hch, hcount, hhead⟩ := fetchedEvents_inv url n s h
  have hurl := h.1
  rcases failed_or_stored unmarshal res with hf | ⟨data, hs, he, hd, hk⟩
  · rw [refreshIteration_failed unmarshal s res hf]
    exact ⟨⟨hurl, hch, hcount, Or.inr ⟨hhead, Or.inl rfl⟩⟩, hhead⟩
  · rw [refreshIteration_stored unmarshal s res data hs he hd hk]
    have hhead2 : (fetchedEvents s ++ [Event.store data]).head? = some (Event.fetch url) := by
      cases hev : fetchedEvents s with
      | nil => rw [hev] at hhead; simp at hhead
      | cons e rest =>
        rw [hev] at hhead
        simpa using hhead
    refine ⟨⟨hurl, ?_, ?_, Or.inr ⟨hhead2, Or.inr rfl⟩⟩, hhead2⟩
    · show List.Chain' DelayedFetch (fetchedEvents s ++ [Event.store data])
      rw [List.chain'_append]
      refine ⟨hch, List.chain'_singleton _, ?_⟩
      intro x _ y hy
      simp at hy
      subst hy
      trivial
    · show ((fetchedEvents s ++ [Event.store data]).filter _).length = n + 1
      rw [List.filter_append, List.length_append, hcount]
      simp

theorem refreshLoop_inv (unmarshal : Bytes → Except String GoMap) (url : String)
    (results : List FetchResult) (n : Nat) (s : LoopState) (h : LoopInv url n s) :
    LoopInv url (n + results.length) (refreshLoop unmarshal s results) := by
  induction results generalizing n s with
  | nil => exact h
  | cons r rest ih =>
    unfold refreshLoop
    rw [List.foldl_cons]
    have hstep := (refreshIteration_inv unmarshal url n s r h).1
    have := ih (n + 1) (refreshIteration unmarshal s r) hstep
    rw [List.length_cons]
    have hn : n + (rest.length + 1) = n + 1 + rest.length := by omega
    rw [hn]
    exact this

/-! ## The claims -/

/-- C1: if the fetch of an iteration fails (status other than 200, or a transport
error, or a body the decoder rejects, or a decoded map with the key `Error Message`),
the `DataAPI` after the iteration is the one before it, cache included; if the
cache held the map `P`, `GET /` still answers 200 with the encoding of `P`. -/
theorem failed_fetch_keeps_cache (unmarshal : Bytes → Except String GoMap) (s : LoopState)
    (res : FetchResult)
    (h : res.status ≠ StatusOK ∨ res.errs ≠ [] ∨ (∃ e, unmarshal res.body = Except.error e) ∨
      (∃ m, unmarshal res.body = Except.ok m ∧ m.hasKey (ascii "Error Message") = true)) :
    (refreshIteration unmarshal s res).api.data = s.api.data ∧
      (refreshIteration unmarshal s res).api = s.api ∧
      ∀ (enc : GoMap → Except String Bytes) (P : Entries) (raw : Bytes),
        s.api.data = some P → enc (some P) = Except.ok raw →
        ((refreshIteration unmarshal s res).api.serve enc Handler.GetDataHandler).err = none ∧
        ((refreshIteration unmarshal s res).api.serve enc Handler.GetDataHandler).ctx.status = 200 ∧
        ((refreshIteration unmarshal s res).api.serve enc Handler.GetDataHandler).ctx.body = raw := by
  have hit := refreshIteration_failed unmarshal s res h
  refine ⟨by rw [hit], by rw [hit], ?_⟩
  intro enc P raw hP henc
  rw [hit]
  have hg := getData_present s.api enc P raw hP henc
  exact ⟨hg.1, hg.2.1, hg.2.2.1⟩

/-- C1 at a concrete input: the cache holds a map with the key `Meta Data`, the
remote API answers 200 with an `Error Message` body; the cache and the answer of
`GET /` are as before. -/
theorem failed_fetch_keeps_cache_witness :
    (refreshIteration jsonUnmarshal
        { api := sampleAPI (some [(ascii "Meta Data", JsonValue.object [])]),
          refreshInterval := DEFAULT_REFRESH_INTERVAL, events := [] }
        { status := 200, body := errorMessageBody, errs := [] }).api.data
      = some [(ascii "Meta Data", JsonValue.object [])] ∧
    ((refreshIteration jsonUnmarshal
        { api := sampleAPI (some [(ascii "Meta Data", JsonValue.object [])]),
          refreshInterval := DEFAULT_REFRESH_INTERVAL, events := [] }
        { status := 200, body := errorMessageBody, errs := [] }).api.serve jsonMarshal
          Handler.GetDataHandler).ctx.status = 200 ∧
    ((refreshIteration jsonUnmarshal
        { api := sampleAPI (some [(ascii "Meta Data", JsonValue.object [])]),
          refreshInterval := DEFAULT_REFRESH_INTERVAL, events := [] }
        { status := 200, body := errorMessageBody, errs := [] }).api.serve jsonMarshal
          Handler.GetDataHandler).ctx.body = ascii "\x7b\"Meta Data\":\x7b\x7d\x7d" :=
  have h := failed_fetch_keeps_cache jsonUnmarshal
    { api := sampleAPI (some [(ascii "Meta Data", JsonValue.object [])]),
      refreshInterval := DEFAULT_REFRESH_INTERVAL, events := [] }
    { status := 200, body := errorMessageBody, errs := [] }
    (Or.inr (Or.inr (Or.inr
      ⟨some [(ascii "Error Message", JsonValue.string (ascii "invalid API key"))], rfl, rfl⟩)))
  have hg := h.2.2 jsonMarshal [(ascii "Meta Data", JsonValue.object [])]
    (ascii "\x7b\"Meta Data\":\x7b\x7d\x7d") rfl rfl
  ⟨h.1, hg.2.1, hg.2.2⟩

/-- C4: with an absent cache `GET /` answers 500 with an empty body and the
readiness probe answers 503 with an empty body; the liveness probe answers 200 with
an empty body in every cache state; the cache of a `DataAPI` returned by
`NewDataAPI` is absent. -/
theorem absent_cache_answers (d : DataAPI) (c : Ctx) :
    (d.data = none →
      (d.GetDataHandler c).err = none ∧
      (d.GetDataHandler c).ctx.status = 500 ∧ (d.GetDataHandler c).ctx.body = [] ∧
      (d.ReadinessProbeHandler c).err = none ∧
      (d.ReadinessProbeHandler c).ctx.status = 503 ∧ (d.ReadinessProbeHandler c).ctx.body = []) ∧
    ((d.LivenessProbeHandler c).err = none ∧
      (d.LivenessProbeHandler c).ctx.status = 200 ∧ (d.LivenessProbeHandler c).ctx.body = []) ∧
    (∀ env : Env, NewDataAPI env = Except.ok d → d.data = none) := by
  refine ⟨?_, ?_, ?_⟩
  · intro hd
    simp only [DataAPI.GetDataHandler, DataAPI.ReadinessProbeHandler, hd, GoMap.isNil,
      Option.isNone_none, if_true, Ctx.Send, Ctx.SendStatus, StatusInternalServerError,
      StatusServiceUnavailable]
    refine ⟨trivial, ?_, trivial, trivial, ?_, trivial⟩ <;> split <;> rfl
  · simp only [DataAPI.LivenessProbeHandler, Ctx.Send, Ctx.SendStatus, StatusOK]
    refine ⟨trivial, ?_, trivial⟩
    split <;> rfl
  · intro env henv
    unfold NewDataAPI at henv
    simp only at henv
    split at henv
    · exact absurd henv (by simp)
    · split at henv
      · exact absurd henv (by simp)
      · split at henv
        · exact absurd henv (by simp)
        · injection henv with henv
          rw [← henv]

/-- C4 at a concrete input: the `DataAPI` of a fresh start, with an absent cache,
serving a fresh request. -/
theorem absent_cache_answers_witness :
    ((sampleAPI none).GetDataHandler (Ctx.fresh jsonMarshal)).ctx.status = 500 ∧
    ((sampleAPI none).GetDataHandler (Ctx.fresh jsonMarshal)).ctx.body = [] ∧
    ((sampleAPI none).ReadinessProbeHandler (Ctx.fresh jsonMarshal)).ctx.status = 503 ∧
    ((sampleAPI none).ReadinessProbeHandler (Ctx.fresh jsonMarshal)).ctx.body = [] ∧
    ((sampleAPI none).LivenessProbeHandler (Ctx.fresh jsonMarshal)).ctx.status = 200 :=
  have h := absent_cache_answers (sampleAPI none) (Ctx.fresh jsonMarshal)
  have ha := h.1 rfl
  ⟨ha.2.1, ha.2.2.1, ha.2.2.2.2.1, ha.2.2.2.2.2, h.2.1.2.1⟩

/-- C8: each of the three handlers returns the `DataAPI` it was called on (cached
payload, `apikey`, `currency` and `market` included) and causes no event: no fetch,
no store, no sleep. -/
theorem handlers_leave_state (d : DataAPI) (h : Handler) (c : Ctx) :
    (d.handle h c).api = d ∧
      (d.handle h c).api.data = d.data ∧ (d.handle h c).api.apikey = d.apikey ∧
      (d.handle h c).api.currency = d.currency ∧ (d.handle h c).api.market = d.market ∧
      (d.handle h c).events = [] := by
  cases h
  · unfold DataAPI.handle DataAPI.GetDataHandler
    simp only
    split <;> exact ⟨rfl, rfl, rfl, rfl, rfl, rfl⟩
  · exact ⟨rfl, rfl, rfl, rfl, rfl, rfl⟩
  · exact ⟨rfl, rfl, rfl, rfl, rfl, rfl⟩

/-- C5: after an iteration the interval is the 5-second retry interval if the
iteration failed, whatever the interval was before (so also right after a success),
and it is the 2-hour refresh interval if and only if the iteration stored a decoded
map in the cache; the next iteration sleeps exactly that interval before it
fetches. -/
theorem retry_cadence (unmarshal : Bytes → Except String GoMap) (s : LoopState)
    (res next : FetchResult) :
    (res.status ≠ StatusOK ∨ res.errs ≠ [] ∨ (∃ e, unmarshal res.body = Except.error e) ∨
        (∃ m, unmarshal res.body = Except.ok m ∧ m.hasKey (ascii "Error Message") = true) →
      (refreshIteration unmarshal s res).refreshInterval = DEFAULT_RETRY_INTERVAL ∧
      (refreshIteration unmarshal s res).events = fetchedEvents s) ∧
    ((refreshIteration unmarshal s res).refreshInterval = DEFAULT_REFRESH_INTERVAL ↔
      ∃ data, (refreshIteration unmarshal s res).events = fetchedEvents s ++ [Event.store data] ∧
        (refreshIteration unmarshal s res).api.data = data) ∧
    (∃ tail, (refreshIteration unmarshal (refreshIteration unmarshal s res) next).events =
      (refreshIteration unmarshal s res).events ++
        Event.sleep (refreshIteration unmarshal s res).refreshInterval ::
        Event.fetch (DATA_API_ENDPOINT s.api.currency s.api.market s.api.apikey) :: tail) ∧
    DEFAULT_RETRY_INTERVAL = 5 * 1000000000 ∧
    DEFAULT_REFRESH_INTERVAL = 2 * 3600 * 1000000000 := by
  refine ⟨?_, ?_, ?_, by decide, by decide⟩
  · intro h
    rw [refreshIteration_failed unmarshal s res h]
    exact ⟨rfl, rfl⟩
  · rcases failed_or_stored unmarshal res with h | ⟨data, hs, he, hd, hk⟩
    · rw [refreshIteration_failed unmarshal s res h]
      constructor
      · intro hc
        exact absurd hc retry_ne_refresh
      · rintro ⟨data, hev, -⟩
        have hl := congrArg List.length hev
        simp at hl
    · rw [refreshIteration_stored unmarshal s res data hs he hd hk]
      exact ⟨fun _ => ⟨data, rfl, rfl⟩, fun _ => rfl⟩
  · have hpos : (refreshIteration unmarshal s res).refreshInterval > 0 := by
      rcases refreshIteration_interval unmarshal s res with h | h
      · rw [h]; exact retry_pos
      · rw [h]; exact refresh_pos
    have hapi : ∀ t : LoopState, ∀ r : FetchResult,
        (refreshIteration unmarshal t r).api.currency = t.api.currency ∧
        (refreshIteration unmarshal t r).api.market = t.api.market ∧
        (refreshIteration unmarshal t r).api.apikey = t.api.apikey := by
      intro t r
      rcases failed_or_stored unmarshal r with h | ⟨data, hs, he, hd, hk⟩
      · rw [refreshIteration_failed unmarshal t r h]
        exact ⟨rfl, rfl, rfl⟩
      · rw [refreshIteration_stored unmarshal t r data hs he hd hk]
        exact ⟨rfl, rfl, rfl⟩
    have hf : fetchedEvents (refreshIteration unmarshal s res) =
        (refreshIteration unmarshal s res).events ++
          [Event.sleep (refreshIteration unmarshal s res).refreshInterval,
           Event.fetch (DATA_API_ENDPOINT s.api.currency s.api.market s.api.apikey)] := by
      unfold fetchedEvents
      rw [if_pos hpos, (hapi s res).1, (hapi s res).2.1, (hapi s res).2.2]
      simp
    rcases failed_or_stored unmarshal next with h | ⟨data, hs, he, hd, hk⟩
    · refine ⟨[], ?_⟩
      rw [refreshIteration_failed unmarshal _ next h]
      exact hf
    · refine ⟨[Event.store data], ?_⟩
      rw [refreshIteration_stored unmarshal _ next data hs he hd hk]
      simp only [hf]
      simp

/-- C5 at a concrete input: right after a success (interval of 2 hours) the remote
API answers 429; the interval becomes 5 seconds. -/
theorem retry_cadence_witness :
    (refreshIteration jsonUnmarshal
        { api := sampleAPI (some []), refreshInterval := DEFAULT_REFRESH_INTERVAL, events := [] }
        { status := 429, body := [], errs := [] }).refreshInterval = 5000000000 :=
  (((retry_cadence jsonUnmarshal
      { api := sampleAPI (some []), refreshInterval := DEFAULT_REFRESH_INTERVAL, events := [] }
      { status := 429, body := [], errs := [] }
      { status := 429, body := [], errs := [] }).1 (Or.inl (by decide))).1).trans (by decide)

/-- C10: in `refreshData` the first event is a fetch (the interval starts at zero,
so nothing is slept before it), every fetch after it comes right after a sleep of
5 seconds or of 2 hours, a positive time, and there is one fetch per iteration: no
two fetches follow each other without a sleep between them. -/
theorem first_fetch_immediate_later_delayed (unmarshal : Bytes → Except String GoMap)
    (d : DataAPI) (res : FetchResult) (rest : List FetchResult) :
    (d.refreshData unmarshal []).refreshInterval = 0 ∧
    (d.refreshData unmarshal (res :: rest)).events.head? =
      some (Event.fetch (DATA_API_ENDPOINT d.currency d.market d.apikey)) ∧
    List.Chain' DelayedFetch (d.refreshData unmarshal (res :: rest)).events ∧
    ((d.refreshData unmarshal (res :: rest)).events.filter
      (fun e => match e with | Event.fetch _ => true | _ => false)).length = rest.length + 1 := by
  have h0 : LoopInv (DATA_API_ENDPOINT d.currency d.market d.apikey) 0
      { api := d, refreshInterval := 0, events := [] } :=
    ⟨rfl, List.chain'_nil, rfl, Or.inl ⟨rfl, rfl⟩⟩
  have h := refreshLoop_inv unmarshal _ (res :: rest) 0 _ h0
  obtain ⟨-, hch, hcount, hcase⟩ := h
  refine ⟨rfl, ?_, hch, ?_⟩
  · rcases hcase with ⟨hnil, -⟩ | ⟨hhead, -⟩
    · unfold DataAPI.refreshData
      rw [hnil] at hcount
      simp at hcount
    · exact hhead
  · unfold DataAPI.refreshData
    rw [hcount]
    simp

/-- C6: `NewDataAPI` ends the process if and only if one of `API_KEY`, `CURRENCY`,
`MARKET` is unset or empty; otherwise it returns a `DataAPI` holding the three
values, with an absent cache and the three routes registered. -/
theorem newDataAPI_requires_config (env : Env) :
    ((∃ msg, NewDataAPI env = Except.error msg) ↔
      (unsetOrEmpty env "API_KEY" ∨ unsetOrEmpty env "CURRENCY" ∨ unsetOrEmpty env "MARKET")) ∧
    (¬ (unsetOrEmpty env "API_KEY" ∨ unsetOrEmpty env "CURRENCY" ∨ unsetOrEmpty env "MARKET") →
      ∃ d, NewDataAPI env = Except.ok d ∧
        env "API_KEY" = some d.apikey ∧ env "CURRENCY" = some d.currency ∧
        env "MARKET" = some d.market ∧ d.data = none ∧
        d.Http.map App.routes = some [("/", Handler.GetDataHandler),
          ("/healthz/live", Handler.LivenessProbeHandler),
          ("/healthz/ready", Handler.ReadinessProbeHandler)]) := by
  have hget : ∀ key : String, ¬ unsetOrEmpty env key → env key = some (Getenv env key) := by
    intro key hk
    unfold unsetOrEmpty at hk
    unfold Getenv
    cases h : env key with
    | none => exact absurd (Or.inl h) hk
    | some v => rfl
  by_cases ha : unsetOrEmpty env "API_KEY"
  · have hr : NewDataAPI env = Except.error "No API key provided" := by
      unfold NewDataAPI
      simp only [CFG_ENV_API_KEY]
      rw [if_pos ((getenv_length_zero env "API_KEY").mpr ha)]
    exact ⟨⟨fun _ => Or.inl ha, fun _ => ⟨_, hr⟩⟩, fun hn => absurd (Or.inl ha) hn⟩
  · by_cases hc : unsetOrEmpty env "CURRENCY"
    · have hr : NewDataAPI env = Except.error "No currency ticker provided" := by
        unfold NewDataAPI
        simp only [CFG_ENV_API_KEY, CFG_ENV_CURRENCY]
        rw [if_neg (fun h => ha ((getenv_length_zero env "API_KEY").mp h)),
          if_pos ((getenv_length_zero env "CURRENCY").mpr hc)]
      exact ⟨⟨fun _ => Or.inr (Or.inl hc), fun _ => ⟨_, hr⟩⟩,
        fun hn => absurd (Or.inr (Or.inl hc)) hn⟩
    · by_cases hm : unsetOrEmpty env "MARKET"
      · have hr : NewDataAPI env = Except.error "No market name provided" := by
          unfold NewDataAPI
          simp only [CFG_ENV_API_KEY, CFG_ENV_CURRENCY, CFG_ENV_MARKET]
          rw [if_neg (fun h => ha ((getenv_length_zero env "API_KEY").mp h)),
            if_neg (fun h => hc ((getenv_length_zero env "CURRENCY").mp h)),
            if_pos ((getenv_length_zero env "MARKET").mpr hm)]
        exact ⟨⟨fun _ => Or.inr (Or.inr hm), fun _ => ⟨_, hr⟩⟩,
          fun hn => absurd (Or.inr (Or.inr hm)) hn⟩
      · have hr : NewDataAPI env = Except.ok
            { Http := some { JSONEncoder := jsonMarshal,
                             routes := [("/", Handler.GetDataHandler),
                                        ("/healthz/live", Handler.LivenessProbeHandler),
                                        ("/healthz/ready", Handler.ReadinessProbeHandler)] },
              apikey := Getenv env "API_KEY", currency := Getenv env "CURRENCY",
              market := Getenv env "MARKET", data := none } := by
          unfold NewDataAPI
          simp only [CFG_ENV_API_KEY, CFG_ENV_CURRENCY, CFG_ENV_MARKET]
          rw [if_neg (fun h => ha ((getenv_length_zero env "API_KEY").mp h)),
            if_neg (fun h => hc ((getenv_length_zero env "CURRENCY").mp h)),
            if_neg (fun h => hm ((getenv_length_zero env "MARKET").mp h))]
        refine ⟨⟨?_, ?_⟩, ?_⟩
        · rintro ⟨msg, hmsg⟩
          rw [hr] at hmsg
          exact absurd hmsg (by simp)
        · rintro (h | h | h)
          · exact absurd h ha
          · exact absurd h hc
          · exact absurd h hm
        · intro _
          exact ⟨_, hr, hget _ ha, hget _ hc, hget _ hm, rfl, rfl⟩

/-- The environment with `API_KEY=demo`, `CURRENCY=BTC`, `MARKET=USD`. -/
def sampleEnv : Env := fun key =>
  if key = "API_KEY" then some "demo"
  else if key = "CURRENCY" then some "BTC"
  else if key = "MARKET" then some "USD"
  else none

/-- C6 at a concrete input: with the three variables set, `NewDataAPI` returns a
`DataAPI` that holds them. -/
theorem newDataAPI_requires_config_witness :
    ∃ d, NewDataAPI sampleEnv = Except.ok d ∧
      sampleEnv "API_KEY" = some d.apikey ∧ sampleEnv "CURRENCY" = some d.currency ∧
      sampleEnv "MARKET" = some d.market ∧ d.data = none ∧
      d.Http.map App.routes = some [("/", Handler.GetDataHandler),
        ("/healthz/live", Handler.LivenessProbeHandler),
        ("/healthz/ready", Handler.ReadinessProbeHandler)] :=
  (newDataAPI_requires_config sampleEnv).2 (by
    unfold unsetOrEmpty sampleEnv
    decide)

/-- C7: from an absent cache, a first fetch answered 429 leaves the cache absent and
the interval at 5 seconds; a second fetch answered 200 without transport errors,
with a body decoding to a map `P` that has the key `Meta Data` and not the key
`Error Message`, comes after a sleep of 5 seconds and stores `P`; `GET /` then
answers 200 with the encoding of `P`. -/
theorem rate_limit_then_success (unmarshal : Bytes → Except String GoMap)
    (enc : GoMap → Except String Bytes) (d : DataAPI) (first second : FetchResult)
    (P : GoMap) (raw : Bytes)
    (hd : d.data = none) (h1 : first.status = 429)
    (h2 : second.status = 200) (he : second.errs = [])
    (hdec : unmarshal second.body = Except.ok P)
    (hmeta : P.hasKey (ascii "Meta Data") = true)
    (hno : P.hasKey (ascii "Error Message") = false)
    (henc : enc P = Except.ok raw) :
    (d.refreshData unmarshal [first]).api.data = none ∧
    (d.refreshData unmarshal [first]).refreshInterval = DEFAULT_RETRY_INTERVAL ∧
    (d.refreshData unmarshal [first, second]).events =
      [Event.fetch (DATA_API_ENDPOINT d.currency d.market d.apikey),
       Event.sleep DEFAULT_RETRY_INTERVAL,
       Event.fetch (DATA_API_ENDPOINT d.currency d.market d.apikey),
       Event.store P] ∧
    (d.refreshData unmarshal [first, second]).api.data = P ∧
    ((d.refreshData unmarshal [first, second]).api.serve enc Handler.GetDataHandler).err = none ∧
    ((d.refreshData unmarshal [first, second]).api.serve enc
      Handler.GetDataHandler).ctx.status = 200 ∧
    ((d.refreshData unmarshal [first, second]).api.serve enc
      Handler.GetDataHandler).ctx.body = raw := by
  have hf : FetchFailed unmarshal first := Or.inl (by rw [h1]; decide)
  have e1 : d.refreshData unmarshal [first] =
      { api := d, refreshInterval := DEFAULT_RETRY_INTERVAL,
        events := [Event.fetch (DATA_API_ENDPOINT d.currency d.market d.apikey)] } := by
    unfold DataAPI.refreshData refreshLoop
    rw [List.foldl_cons, List.foldl_nil, refreshIteration_failed unmarshal _ first hf]
    simp [fetchedEvents]
  have e2 : d.refreshData unmarshal [first, second] =
      { api := { d with data := P }, refreshInterval := DEFAULT_REFRESH_INTERVAL,
        events := [Event.fetch (DATA_API_ENDPOINT d.currency d.market d.apikey),
                   Event.sleep DEFAULT_RETRY_INTERVAL,
                   Event.fetch (DATA_API_ENDPOINT d.currency d.market d.apikey),
                   Event.store P] } := by
    have e1b := e1
    unfold DataAPI.refreshData refreshLoop at e1b ⊢
    rw [List.foldl_cons, List.foldl_nil] at e1b
    rw [List.foldl_cons, List.foldl_cons, List.foldl_nil, e1b,
      refreshIteration_stored unmarshal _ second P h2 he hdec hno]
    simp [fetchedEvents, retry_pos]
  cases P with
  | none => simp [GoMap.hasKey, GoMap.lookup] at hmeta
  | some kvs =>
    have hg := getData_present { d with data := some kvs } enc kvs raw rfl henc
    rw [e1, e2]
    exact ⟨hd, rfl, rfl, rfl, hg.1, hg.2.1, hg.2.2.1⟩

/-- C7 at a concrete input: a 429, then a 200 whose body binds `Meta Data` to an
empty object. -/
theorem rate_limit_then_success_witness :
    ((sampleAPI none).refreshData jsonUnmarshal
      [{ status := 429, body := [], errs := [] }]).api.data = none ∧
    (((sampleAPI none).refreshData jsonUnmarshal
      [{ status := 429, body := [], errs := [] },
       { status := 200, body := metaDataBody, errs := [] }]).api.serve jsonMarshal
        Handler.GetDataHandler).ctx.status = 200 ∧
    (((sampleAPI none).refreshData jsonUnmarshal
      [{ status := 429, body := [], errs := [] },
       { status := 200, body := metaDataBody, errs := [] }]).api.serve jsonMarshal
        Handler.GetDataHandler).ctx.body = ascii "\x7b\"Meta Data\":\x7b\x7d\x7d" :=
  have h := rate_limit_then_success jsonUnmarshal jsonMarshal (sampleAPI none)
    { status := 429, body := [], errs := [] }
    { status := 200, body := metaDataBody, errs := [] }
    (some [(ascii "Meta Data", JsonValue.object [])])
    (ascii "\x7b\"Meta Data\":\x7b\x7d\x7d") rfl rfl rfl rfl rfl rfl rfl rfl
  ⟨h.1, h.2.2.2.2.2.1, h.2.2.2.2.2.2⟩

/-- C2, the code at the body `null`: the fetch has status 200 and no transport
error, the decoder accepts the body and yields the nil map, which has no key
`Error Message`; the iteration stores it and takes the 2-hour interval, and after
it the cache is absent, `GET /` answers 500 with an empty body and the readiness
probe answers 503. -/
theorem null_body_success_serves_error :
    jsonUnmarshal nullBody = Except.ok none ∧
    GoMap.hasKey none (ascii "Error Message") = false ∧
    (refreshIteration jsonUnmarshal
        { api := sampleAPI none, refreshInterval := 0, events := [] }
        { status := 200, body := nullBody, errs := [] }).refreshInterval
      = DEFAULT_REFRESH_INTERVAL ∧
    (refreshIteration jsonUnmarshal
        { api := sampleAPI none, refreshInterval := 0, events := [] }
        { status := 200, body := nullBody, errs := [] }).events
      = [Event.fetch (DATA_API_ENDPOINT "BTC" "USD" "demo"), Event.store none] ∧
    (refreshIteration jsonUnmarshal
        { api := sampleAPI none, refreshInterval := 0, events := [] }
        { status := 200, body := nullBody, errs := [] }).api.data = none ∧
    ((refreshIteration jsonUnmarshal
        { api := sampleAPI none, refreshInterval := 0, events := [] }
        { status := 200, body := nullBody, errs := [] }).api.serve jsonMarshal
          Handler.GetDataHandler).ctx.status = 500 ∧
    ((refreshIteration jsonUnmarshal
        { api := sampleAPI none, refreshInterval := 0, events := [] }
        { status := 200, body := nullBody, errs := [] }).api.serve jsonMarshal
          Handler.GetDataHandler).ctx.body = [] ∧
    ((refreshIteration jsonUnmarshal
        { api := sampleAPI none, refreshInterval := 0, events := [] }
        { status := 200, body := nullBody, errs := [] }).api.serve jsonMarshal
          Handler.ReadinessProbeHandler).ctx.status = 503 :=
  ⟨rfl, rfl, rfl, rfl, rfl, rfl, rfl, rfl⟩

/-- C3, the code on two fetches: the first is answered 200 with an object that has
the key `Meta Data`, the second 200 with the body `null`.  After the first
iteration the cache is present and the readiness probe answers 200; after the
second the cache is absent again and the probe answers 503. -/
theorem null_body_clears_present_cache :
    ((sampleAPI none).refreshData jsonUnmarshal
      [{ status := 200, body := metaDataBody, errs := [] }]).api.data.isNil = false ∧
    (((sampleAPI none).refreshData jsonUnmarshal
      [{ status := 200, body := metaDataBody, errs := [] }]).api.serve jsonMarshal
        Handler.ReadinessProbeHandler).ctx.status = 200 ∧
    ((sampleAPI none).refreshData jsonUnmarshal
      [{ status := 200, body := metaDataBody, errs := [] },
       { status := 200, body := nullBody, errs := [] }]).api.data.isNil = true ∧
    (((sampleAPI none).refreshData jsonUnmarshal
      [{ status := 200, body := metaDataBody, errs := [] },
       { status := 200, body := nullBody, errs := [] }]).api.serve jsonMarshal
        Handler.ReadinessProbeHandler).ctx.status = 503 ∧
    (((sampleAPI none).refreshData jsonUnmarshal
      [{ status := 200, body := metaDataBody, errs := [] },
       { status := 200, body := nullBody, errs := [] }]).api.serve jsonMarshal
        Handler.GetDataHandler).ctx.status = 500 :=
  ⟨rfl, rfl, rfl, rfl, rfl⟩

end LzTha
